import Mathlib

/-!
Verification of the Resto Supply Hub chatbot backend.

The development shallowly embeds the repository's server code:
the cursor-paginated Shopify catalog fetch (`fetchCatalog`, with a
small-step version `syncStep` exposing the states a concurrent reader
can observe), the `/chat` request handler of the main variant
(`chatHandler`), the error-surfacing reply mapping of the DeepSeek
variant (`deepseekReplyOf`), the serverless handler (`vercelHandler`),
and a product matcher modelled from the specification (the repository
ships no matcher implementation).  Remote services are parameters:
the catalog provider is the list of page responses it returns in
order, and the completion provider is a function from the outbound
request to its outcome.
-/

/-- A variant price object as returned by the catalog provider
(`price { amount currencyCode }`). -/
structure Price where
  amount : String
  currencyCode : String
deriving DecidableEq

/-- The product node of one catalog edge (`title handle tags variants`). -/
structure ProductNode where
  title : String
  handle : String
  tags : List String
  variants : List Price
deriving DecidableEq

/-- One edge of a paginated products response (`edges { cursor node }`). -/
structure Edge where
  cursor : String
  node : ProductNode
deriving DecidableEq

/-- One page of the products query: its edges and
`pageInfo { hasNextPage }`. -/
structure Page where
  edges : List Edge
  hasNextPage : Bool
deriving DecidableEq

/-- The outcome of one page request: product data, or a failed request /
error payload (in the source, `json.data.products` then throws). -/
inductive PageResult where
  | ok : Page → PageResult
  | err : PageResult
deriving DecidableEq

/-- Body of the loop's `out.push(...)` in `fetchCatalog`: one markdown bullet per edge.
`v0 = node.variants.edges[0]?.node`; a missing variant yields the `—`
sentinel price. -/
def renderLine (dom : String) (n : ProductNode) : String :=
  let price :=
    match n.variants.head? with
    | some p => p.amount ++ " " ++ p.currencyCode
    | none => "—"
  let url := "https://" ++ dom ++ "/products/" ++ n.handle
  "• " ++ n.title ++ " – $" ++ price ++ " – [View item →](" ++ url ++ ")"

/-- The `while (true)` pagination loop of `fetchCatalog`.  The provider is
modelled as the list of responses it returns, in request order; `cursor`
is the `after` value of the next request.  Returns the requests issued
(each `(first, after)`, with `first` fixed at 250) and `some` accumulated
lines on success, or `none` when a page request fails, the provider has
no response, or `edges.at(-1)` is taken on an empty edge list (a thrown
`TypeError` in the source). -/
def fetchPages (dom : String) : List PageResult → Option String →
    List (Nat × Option String) × Option (List String)
  | [], _ => ([], none)
  | .err :: _, cursor => ([(250, cursor)], none)
  | .ok pg :: rest, cursor =>
    let lines := pg.edges.map (fun e => renderLine dom e.node)
    if pg.hasNextPage then
      match pg.edges.getLast? with
      | none => ([(250, cursor)], none)
      | some e =>
        let r := fetchPages dom rest (some e.cursor)
        ((250, cursor) :: r.1, r.2.map (fun tl => lines ++ tl))
    else
      ([(250, cursor)], some lines)

/-- JS truthiness of an environment variable: `undefined` and the empty
string are falsy. -/
def envTruthy : Option String → Bool
  | none => false
  | some s => !s.isEmpty

/-- The function `fetchCatalog`: skips the fetch when `SHOPIFY_TOKEN` or
`SHOPIFY_DOMAIN` is falsy; otherwise runs the pagination loop from a
`null` cursor and assigns `catalogLines = out` only on success.  Returns
the requests issued and the value of `catalogLines` after the run
(`old` is its value before the run). -/
def fetchCatalog (token dom : Option String) (pages : List PageResult)
    (old : List String) : List (Nat × Option String) × List String :=
  match token, dom with
  | some t, some d =>
    if t.isEmpty || d.isEmpty then ([], old)
    else
      match fetchPages d pages none with
      | (reqs, some out) => (reqs, out)
      | (reqs, none) => (reqs, old)
  | _, _ => ([], old)

/-- A simulated provider "returning P pages": nonempty, every page but
the last has `hasNextPage` and at least one edge (so it carries a cursor
for the next request), and the last page ends the pagination. -/
def wellPaged : List Page → Bool
  | [] => false
  | [pg] => !pg.hasNextPage
  | pg :: pg2 :: rest => pg.hasNextPage && !pg.edges.isEmpty && wellPaged (pg2 :: rest)

/-- Control point of an in-flight catalog sync: about to issue the next
page request (`looping`, with the pending cursor, the local `out`
accumulator, and the provider responses not yet consumed), aborted
(`failed`), or completed (`done`). -/
inductive SyncPhase where
  | looping (cursor : Option String) (acc : List String) (remaining : List PageResult)
  | failed
  | done
deriving DecidableEq

/-- State visible at a suspension point of `fetchCatalog`: the published
`catalogLines` reference and the loop's control point. -/
structure SyncState where
  published : List String
  phase : SyncPhase
deriving DecidableEq

/-- One loop iteration of `fetchCatalog` as a step on `SyncState`.  The
published reference is written exactly once, in the same step that exits
the loop (`catalogLines = out` after `break`); every other step leaves
it untouched.  `failed` and `done` are terminal. -/
def syncStep (dom : String) : SyncState → SyncState
  | ⟨pub, .looping _ acc remaining⟩ =>
    match remaining with
    | [] => ⟨pub, .failed⟩
    | .err :: _ => ⟨pub, .failed⟩
    | .ok pg :: rest =>
      let acc2 := acc ++ pg.edges.map (fun e => renderLine dom e.node)
      if pg.hasNextPage then
        match pg.edges.getLast? with
        | none => ⟨pub, .failed⟩
        | some e => ⟨pub, .looping (some e.cursor) acc2 rest⟩
      else
        ⟨acc2, .done⟩
  | s => s

/-- Initial state of a sync run: the previously published lines, an
empty accumulator, a `null` cursor, and the provider's responses. -/
def syncInit (old : List String) (pages : List PageResult) : SyncState :=
  ⟨old, .looping none [] pages⟩

/-- The lines a sync run starting at these provider responses publishes
on success (`none` when the attempt fails part-way). -/
def collectOk (dom : String) : List PageResult → Option (List String)
  | [] => none
  | .err :: _ => none
  | .ok pg :: rest =>
    let lines := pg.edges.map (fun e => renderLine dom e.node)
    if pg.hasNextPage then
      match pg.edges.getLast? with
      | none => none
      | some _ => (collectOk dom rest).map (fun tl => lines ++ tl)
    else
      some lines

/-- One chat message `{ role, name?, content }`. -/
structure Msg where
  role : String
  name : Option String
  content : String
deriving DecidableEq

/-- The fields read from `storeInfo.json`; each may be absent. -/
structure StoreInfo where
  office_hours : Option String
  phone : Option String
  email : Option String
  promo : Option String
  returns : Option String
  shipping : Option String
  tracking : Option String
deriving DecidableEq

/-- Coalescing `x || "—"` on an optional string field (empty string is falsy). -/
def orDash : Option String → String
  | none => "—"
  | some s => if s.isEmpty then "—" else s

/-- Coalescing `x || ""` on an optional string field. -/
def orEmpty : Option String → String
  | none => ""
  | some s => s

/-- The function `storeInfoSnippet()`: the fixed-field block rendered from
`storeInfo`, trimmed. -/
def storeInfoSnippet (si : StoreInfo) : String :=
  ("\nOffice hours: " ++ orDash si.office_hours
    ++ "\nContact: " ++ orEmpty si.phone ++ " • " ++ orEmpty si.email
    ++ "\nCurrent offer: " ++ orDash si.promo
    ++ "\nReturns: " ++ orDash si.returns
    ++ "\nShipping: " ++ orDash si.shipping
    ++ "\nTracking FAQ: " ++ orDash si.tracking
    ++ "\n").trim

/-- The process-wide state a request handler closure can read: the two
caches written at startup/sync time, plus ambient sources (clock,
randomness seed) that the source code never reads — they are carried so
that independence from them is a provable statement rather than a
modelling artifact. -/
structure ProcEnv where
  catalogLines : List String
  storeInfo : StoreInfo
  nowMillis : Nat
  randSeed : Nat

/-- The system message built by the main `/chat` handler (template
literal interpolating `catalogLines.length` and `storeInfoSnippet()`,
then trimmed). -/
def systemMessage (env : ProcEnv) : Msg :=
  ⟨"system", none,
    ("\nYou are a helpful assistant for Resto Supply Hub.\n\nWe currently stock **"
      ++ toString env.catalogLines.length
      ++ " products** in our online catalog.\n\n===== Store Info =====\n"
      ++ storeInfoSnippet env.storeInfo
      ++ "\n\n===== Full Catalog =====\n(The assistant may reference any line below verbatim; do not reveal raw URLs)\n").trim⟩

/-- The catalog message (`role: assistant, name: catalog`) carrying the
joined catalog lines. -/
def catalogMessage (env : ProcEnv) : Msg :=
  ⟨"assistant", some "catalog", String.intercalate "\n" env.catalogLines⟩

/-- Payload `messages: [system, catalogMsg, ...history]` assembled
by the main `/chat` handler. -/
def buildMessages (env : ProcEnv) (history : List Msg) : List Msg :=
  systemMessage env :: catalogMessage env :: history

/-- The JSON body a completion backend returns, as the handler reads it:
`choices[0].message.content` present (`success`), an error payload
tagged as quota/rate-limit exhaustion, another error payload, or a body
with no usable content. -/
inductive CompResp where
  | success (content : String)
  | quotaError (message : String)
  | otherError (message : String)
  | noContent
deriving DecidableEq

/-- The outcome of one completion call: a JSON reply, or a thrown error
(network failure etc.) carrying `err.message`. -/
inductive ProviderOutcome where
  | reply (body : CompResp)
  | thrown (message : String)
deriving DecidableEq

/-- The outbound completion request `{ model, messages }`. -/
structure CompletionRequest where
  model : String
  messages : List Msg
deriving DecidableEq

/-- Extraction `content || fallback`: extracts `choices[0].message.content`,
falling back on any error payload, missing content, or empty string
(falsy in JS). -/
def contentOr (fallback : String) : CompResp → String
  | .success c => if c.isEmpty then fallback else c
  | _ => fallback

/-- The `messages` field of an inbound request body: absent, present but
not an array, or an array. -/
inductive MessagesField where
  | absent
  | notArray
  | arr (ms : List Msg)
deriving DecidableEq

/-- An HTTP response: status code and JSON object body (string fields,
in emission order). -/
structure HttpResp where
  status : Nat
  body : List (String × String)
deriving DecidableEq

/-- The single model identifier the main `/chat` handler ever sends. -/
def llamaModel : String := "meta-llama/llama-3.3-70b-instruct:free"

/-- The fixed degraded reply of the main `/chat` handler. -/
def degradedReply : String := "Sorry, I couldn\x27t generate a response right now."

/-- The main `/chat` handler: validates `req.body.messages`, checks the
API key, sends one completion request `{ model, [system, catalogMsg,
...history] }`, and maps the outcome to a response.  Returns the
response and the list of completion requests issued. -/
def chatHandler (env : ProcEnv) (apiKey : Option String) (body : MessagesField)
    (provider : CompletionRequest → ProviderOutcome) :
    HttpResp × List CompletionRequest :=
  match body with
  | .arr history =>
    if history.isEmpty then (⟨400, [("error", "messages array required")]⟩, [])
    else if !envTruthy apiKey then
      (⟨500, [("error", "Missing OpenRouter API key")]⟩, [])
    else
      let req : CompletionRequest := ⟨llamaModel, buildMessages env history⟩
      match provider req with
      | .thrown _ => (⟨500, [("error", "Server error")]⟩, [req])
      | .reply r => (⟨200, [("reply", contentOr degradedReply r)]⟩, [req])
  | _ => (⟨400, [("error", "messages array required")]⟩, [])

/-- The DeepSeek variant's outcome mapping (`src/unnamed/part_000`):
`jr.error` is surfaced to the caller as `<p>AI error: ...</p>`,
otherwise `content || fallback`; a thrown error becomes a 500. -/
def deepseekReplyOf : ProviderOutcome → HttpResp
  | .thrown _ => ⟨500, [("error", "Server error")]⟩
  | .reply (.quotaError m) => ⟨200, [("reply", "<p>AI error: " ++ m ++ "</p>")]⟩
  | .reply (.otherError m) => ⟨200, [("reply", "<p>AI error: " ++ m ++ "</p>")]⟩
  | .reply (.success c) =>
    ⟨200, [("reply", if c.isEmpty then "<p>Sorry, no answer right now.</p>" else c)]⟩
  | .reply .noContent => ⟨200, [("reply", "<p>Sorry, no answer right now.</p>")]⟩

/-- The serverless handler (`src/api/chat.js`): rejects non-POST with
405 before any other work; on POST sends one `gpt-4` completion request
(the body's `message`, possibly absent, as the user turn) and maps the
outcome.  Returns the response and the requests issued. -/
def vercelHandler (method : String) (message : Option String)
    (provider : CompletionRequest → ProviderOutcome) :
    HttpResp × List CompletionRequest :=
  if method = "POST" then
    let req : CompletionRequest :=
      ⟨"gpt-4",
        [⟨"system", none, "You are a helpful assistant for Resto Supply Hub customers."⟩,
         ⟨"user", none, orEmpty message⟩]⟩
    match provider req with
    | .thrown _ => (⟨500, [("error", "Something went wrong.")]⟩, [req])
    | .reply r => (⟨200, [("reply", contentOr "Sorry, something went wrong." r)]⟩, [req])
  else
    (⟨405, [("error", "Only POST allowed")]⟩, [])

/-- Does `l` start with `q`? (character lists, exact match). -/
def chBeg : List Char → List Char → Bool
  | [], _ => true
  | _ :: _, [] => false
  | a :: qt, b :: lt => a == b && chBeg qt lt

/-- Does `l` contain `q` as a contiguous sublist? -/
def chHas : List Char → List Char → Bool
  | [], q => q.isEmpty
  | a :: t, q => chBeg q (a :: t) || chHas t q

/-- Case-sensitive substring test on strings. -/
def strContains (hay q : String) : Bool := chHas hay.data q.data

/-- The characters of `s`, lower-cased. -/
def lowerChars (s : String) : List Char := s.data.map Char.toLower

/-- Modelled from the spec: a catalog entry as §3 defines `Product`
(the repository ships no ProductMatcher implementation, so its data
model and matching rule are taken from the specification text). -/
structure MatchProduct where
  title : String
  handle : String
  tags : List String
  price : String
deriving DecidableEq

/-- Modelled from the spec: "case-insensitive substring match against
`title` OR any tag". -/
def productMatches (q : String) (p : MatchProduct) : Bool :=
  chHas (lowerChars p.title) (lowerChars q) ||
    p.tags.any (fun t => chHas (lowerChars t) (lowerChars q))

/-- Modelled from the spec: "empty or whitespace-only query" — true when
every character of the query (vacuously, for the empty query) is
whitespace. -/
def blankQuery (q : String) : Bool := q.data.all (fun c => c.isWhitespace)

/-- Modelled from the spec: the ProductMatcher of §4.2 — no code in the
repository implements it (every server variant ships the whole
catalog).  "Empty or whitespace-only query yields zero results";
otherwise matching products "in catalog order, truncated at N". -/
def productMatcher (n : Nat) (q : String) (snap : List MatchProduct) :
    List MatchProduct :=
  if blankQuery q then [] else (snap.filter (productMatches q)).take n

/-- First product of the specification's matcher test snapshot. -/
def lidProduct : MatchProduct := ⟨"Lid 12oz", "lid-12oz", ["lids"], "—"⟩

/-- Second product of the specification's matcher test snapshot. -/
def cupProduct : MatchProduct := ⟨"Cup 12oz", "cup-12oz", ["cups"], "—"⟩

/-- A completion outcome with no usable content: a thrown error, an
error payload, or a missing/empty `choices[0].message.content`. -/
def unusable : ProviderOutcome → Bool
  | .reply (.success c) => c.isEmpty
  | .reply _ => true
  | .thrown _ => true

/-- A two-page provider fixture: page one continues with cursor
`cur1`, page two ends the pagination. -/
def pagesW : List Page :=
  [⟨[⟨"cur1", ⟨"Lid 12oz", "lid-12oz", ["lids"], [⟨"1.50", "USD"⟩]⟩⟩], true⟩,
   ⟨[⟨"cur2", ⟨"Cup 12oz", "cup-12oz", ["cups"], []⟩⟩], false⟩]

/-- A store-facts fixture. -/
def siW : StoreInfo :=
  ⟨some "9-5", some "555-0100", some "help@example.com", none, none, none, none⟩

/-- A process-state fixture. -/
def envW : ProcEnv := ⟨["• Lid 12oz – $1.50 USD – x"], siW, 0, 0⟩

/-- The same caches as `envW` at a different clock reading and seed. -/
def envW2 : ProcEnv := ⟨["• Lid 12oz – $1.50 USD – x"], siW, 987654321, 42⟩

/-- A one-message history fixture. -/
def historyW : List Msg := [⟨"user", none, "do you have lids?"⟩]

/-- A completion provider fixture: the configured model is
quota-exhausted, any other backend would succeed. -/
def quotaThenOkProvider : CompletionRequest → ProviderOutcome :=
  fun req =>
    if req.model = llamaModel
    then .reply (.quotaError "Rate limit exceeded: free-models-per-day")
    else .reply (.success "ok")

/-- One unfolding step of the pagination loop on a continuing page. -/
theorem fetchPages_cons_ok_next (d : String) (pg : Page) (rest : List PageResult)
    (cursor : Option String) (e : Edge) (hn : pg.hasNextPage = true)
    (he : pg.edges.getLast? = some e) :
    fetchPages d (.ok pg :: rest) cursor =
      ((250, cursor) :: (fetchPages d rest (some e.cursor)).1,
       (fetchPages d rest (some e.cursor)).2.map
         (fun tl => pg.edges.map (fun ed => renderLine d ed.node) ++ tl)) := by
  simp [fetchPages, hn, he]

/-- Unfolding of the pagination loop over a well-formed `P`-page
provider, from an arbitrary starting cursor: one request per page, each
subsequent request carrying the previous page's last edge cursor, and
the rendered concatenation of all edges on success. -/
theorem fetchPages_wellPaged (d : String) (pages : List Page)
    (hw : wellPaged pages = true) (cursor : Option String) :
    fetchPages d (pages.map PageResult.ok) cursor =
      ((250, cursor) ::
        pages.dropLast.map (fun pg => (250, pg.edges.getLast?.map Edge.cursor)),
       some ((pages.map Page.edges).flatten.map (fun e => renderLine d e.node))) := by
  induction pages generalizing cursor with
  | nil => simp [wellPaged] at hw
  | cons pg rest ih =>
    cases rest with
    | nil =>
      have hn : pg.hasNextPage = false := by
        simpa [wellPaged] using hw
      simp [fetchPages, hn]
    | cons pg2 rest2 =>
      have h1 : pg.hasNextPage = true ∧ pg.edges.isEmpty = false ∧
          wellPaged (pg2 :: rest2) = true := by
        have := hw
        simp only [wellPaged, Bool.and_eq_true, Bool.not_eq_true'] at this
        exact ⟨this.1.1, this.1.2, this.2⟩
      obtain ⟨hn, hne, hwr⟩ := h1
      have hlast : ∃ e, pg.edges.getLast? = some e := by
        rcases pg.edges.eq_nil_or_concat with h | ⟨l, e, h⟩
        · rw [h] at hne; simp at hne
        · exact ⟨e, by rw [h]; simp⟩
      obtain ⟨e, he⟩ := hlast
      rw [List.map_cons, fetchPages_cons_ok_next d pg _ cursor e hn he,
        ih hwr (some e.cursor)]
      simp [he]

/-- Claim C1: against a provider returning `P` pages, the catalog fetch
issues exactly `P` page requests of size 250, the first with an empty
cursor and each later one with the previous page's last edge cursor,
stops exactly when the continuation flag is false, and publishes the
edges of all pages rendered in original order with no duplicates and no
drops (the published value is the exact ordered concatenation). -/
theorem catalog_pagination_complete (d t : String) (pages : List Page)
    (old : List String) (ht : t.isEmpty = false) (hd : d.isEmpty = false)
    (hw : wellPaged pages = true) :
    (fetchCatalog (some t) (some d) (pages.map PageResult.ok) old).1.length
      = pages.length ∧
    (fetchCatalog (some t) (some d) (pages.map PageResult.ok) old).1 =
      (250, (none : Option String)) ::
        pages.dropLast.map (fun pg => (250, pg.edges.getLast?.map Edge.cursor)) ∧
    (fetchCatalog (some t) (some d) (pages.map PageResult.ok) old).2 =
      (pages.map Page.edges).flatten.map (fun e => renderLine d e.node) := by
  have key := fetchPages_wellPaged d pages hw none
  have hnil : pages ≠ [] := by
    intro h; rw [h] at hw; simp [wellPaged] at hw
  have hpos : 0 < pages.length := List.length_pos.mpr hnil
  refine ⟨?_, ?_, ?_⟩
  · simp [fetchCatalog, ht, hd, key, List.length_dropLast]
    omega
  · simp [fetchCatalog, ht, hd, key]
  · simp [fetchCatalog, ht, hd, key]

/-- Witness for C1 at a concrete two-page provider. -/
theorem catalog_pagination_complete_witness :
    (fetchCatalog (some "tok") (some "shop.example") (pagesW.map PageResult.ok) []).1
      = [(250, none), (250, some "cur1")] ∧
    (fetchCatalog (some "tok") (some "shop.example") (pagesW.map PageResult.ok) []).2
      = (pagesW.map Page.edges).flatten.map (fun e => renderLine "shop.example" e.node) := by
  have h := catalog_pagination_complete "shop.example" "tok" pagesW []
    (by decide) (by decide) (by decide)
  exact ⟨by rw [h.2.1]; decide, h.2.2⟩

/-- The aborted phase is terminal and never writes the published lines. -/
theorem syncStep_iterate_failed (d : String) (pub : List String) (n : Nat) :
    (syncStep d)^[n] ⟨pub, SyncPhase.failed⟩ = ⟨pub, SyncPhase.failed⟩ := by
  induction n with
  | zero => rfl
  | succ m ih => rw [Function.iterate_succ_apply, show syncStep d ⟨pub, .failed⟩ = ⟨pub, .failed⟩ from rfl, ih]

/-- The completed phase is terminal and never rewrites the published
lines. -/
theorem syncStep_iterate_done (d : String) (pub : List String) (n : Nat) :
    (syncStep d)^[n] ⟨pub, SyncPhase.done⟩ = ⟨pub, SyncPhase.done⟩ := by
  induction n with
  | zero => rfl
  | succ m ih => rw [Function.iterate_succ_apply, show syncStep d ⟨pub, .done⟩ = ⟨pub, .done⟩ from rfl, ih]

set_option maxHeartbeats 1000000 in
/-- Invariant of an in-flight sync: at every instant the published
lines are still the pre-sync ones, or the run has completed and they
are the accumulator extended by exactly the lines the remaining pages
yield on success. -/
theorem syncStep_invariant (d : String) (pub : List String) (remaining : List PageResult) :
    ∀ (n : Nat) (cursor : Option String) (acc : List String),
      ((syncStep d)^[n] ⟨pub, .looping cursor acc remaining⟩).published = pub ∨
      (((syncStep d)^[n] ⟨pub, .looping cursor acc remaining⟩).phase = SyncPhase.done ∧
        ∃ tl, collectOk d remaining = some tl ∧
          ((syncStep d)^[n] ⟨pub, .looping cursor acc remaining⟩).published = acc ++ tl) := by
  induction remaining with
  | nil =>
    intro n cursor acc
    cases n with
    | zero => left; rfl
    | succ m =>
      rw [Function.iterate_succ_apply,
        show syncStep d ⟨pub, .looping cursor acc []⟩ = ⟨pub, .failed⟩ from rfl,
        syncStep_iterate_failed]
      left; rfl
  | cons pr rest ih =>
    intro n cursor acc
    cases n with
    | zero => left; rfl
    | succ m =>
      rw [Function.iterate_succ_apply]
      cases pr with
      | err =>
        rw [show syncStep d ⟨pub, .looping cursor acc (.err :: rest)⟩ = ⟨pub, .failed⟩ from rfl,
          syncStep_iterate_failed]
        left; rfl
      | ok pg =>
        cases hn : pg.hasNextPage with
        | false =>
          have hstep : syncStep d ⟨pub, .looping cursor acc (.ok pg :: rest)⟩ =
              ⟨acc ++ pg.edges.map (fun e => renderLine d e.node), .done⟩ := by
            simp [syncStep, hn]
          rw [hstep, syncStep_iterate_done]
          right
          exact ⟨rfl, pg.edges.map (fun e => renderLine d e.node),
            by simp [collectOk, hn], rfl⟩
        | true =>
          cases he : pg.edges.getLast? with
          | none =>
            have hstep : syncStep d ⟨pub, .looping cursor acc (.ok pg :: rest)⟩ =
                ⟨pub, .failed⟩ := by
              simp [syncStep, hn, he]
            rw [hstep, syncStep_iterate_failed]
            left; rfl
          | some e =>
            have hstep : syncStep d ⟨pub, .looping cursor acc (.ok pg :: rest)⟩ =
                ⟨pub, .looping (some e.cursor)
                  (acc ++ pg.edges.map (fun ed => renderLine d ed.node)) rest⟩ := by
              simp [syncStep, hn, he]
            rw [hstep]
            rcases ih m (some e.cursor) (acc ++ pg.edges.map (fun ed => renderLine d ed.node)) with
              h | ⟨hph, tl, hc, hpub⟩
            · left; exact h
            · right
              refine ⟨hph, pg.edges.map (fun ed => renderLine d ed.node) ++ tl, ?_, ?_⟩
              · simp [collectOk, hn, he, hc]
              · rw [hpub, List.append_assoc]

/-- Claim C2: during a catalog sync a reader only ever observes the
pre-sync catalog or, once the run has completed, the full newly
accumulated catalog — never a mixture; and whenever any page request
fails (no successful accumulation exists), every observed state equals
the pre-sync catalog, publication being the single terminal
replacement. -/
theorem catalog_publish_atomic (d : String) (pages : List PageResult)
    (old : List String) (n : Nat) :
    (((syncStep d)^[n] (syncInit old pages)).published = old ∨
      (((syncStep d)^[n] (syncInit old pages)).phase = SyncPhase.done ∧
        collectOk d pages = some (((syncStep d)^[n] (syncInit old pages)).published))) ∧
    (collectOk d pages = none →
      ((syncStep d)^[n] (syncInit old pages)).published = old) := by
  have h := syncStep_invariant d old pages n none []
  unfold syncInit
  constructor
  · rcases h with h | ⟨hph, tl, hc, hpub⟩
    · exact Or.inl h
    · refine Or.inr ⟨hph, ?_⟩
      rw [hc, hpub]
      simp
  · intro hcn
    rcases h with h | ⟨_, tl, hc, _⟩
    · exact h
    · rw [hcn] at hc; cases hc

/-- Witness for C2: a failing single-page attempt leaves the published
catalog untouched at every instant. -/
theorem catalog_publish_atomic_witness :
    ((syncStep "shop.example")^[2] (syncInit ["• old line"] [PageResult.err])).published
      = ["• old line"] :=
  (catalog_publish_atomic "shop.example" [PageResult.err] ["• old line"] 2).2 rfl

/-- Claim C7: with the catalog provider unconfigured (missing or empty
token or domain), a sync invocation issues no request and leaves the
published catalog exactly as it was. -/
theorem sync_noop_when_unconfigured (token dom : Option String)
    (pages : List PageResult) (old : List String)
    (h : envTruthy token = false ∨ envTruthy dom = false) :
    fetchCatalog token dom pages old = ([], old) := by
  cases token with
  | none => rfl
  | some t =>
    cases dom with
    | none => rfl
    | some d =>
      have hor : (t.isEmpty || d.isEmpty) = true := by
        rcases h with h | h
        · have ht : t.isEmpty = true := by simpa [envTruthy] using h
          simp [ht]
        · have hd : d.isEmpty = true := by simpa [envTruthy] using h
          simp [hd]
      simp [fetchCatalog, hor]

/-- Witness for C7 at a missing token. -/
theorem sync_noop_when_unconfigured_witness :
    fetchCatalog none (some "shop.example") (pagesW.map PageResult.ok) ["• old line"]
      = ([], ["• old line"]) :=
  sync_noop_when_unconfigured none (some "shop.example") (pagesW.map PageResult.ok)
    ["• old line"] (Or.inl rfl)

/-- Claim C3 (counterexample): with the configured backend
quota-exhausted and a second backend that would succeed, the handler
still issues exactly one call to the configured model and never calls
the other backend — the claimed priority-ordered fallback iteration
does not exist in the code. -/
theorem gateway_no_fallback_counterexample :
    ((chatHandler envW (some "key") (.arr historyW) quotaThenOkProvider).2.map
        CompletionRequest.model = [llamaModel]) ∧
    ¬ "deepseek/deepseek-chat" ∈
      ((chatHandler envW (some "key") (.arr historyW) quotaThenOkProvider).2.map
        CompletionRequest.model) := by
  constructor
  · decide
  · decide

/-- Claim C3 (amended): for every completion request the handler calls
exactly one backend — the single configured model — and on a
quota-exhaustion (or any other) error payload it contacts no further
backend and returns the fixed degraded reply. -/
theorem gateway_single_backend (env : ProcEnv) (apiKey : Option String)
    (history : List Msg) (provider : CompletionRequest → ProviderOutcome)
    (hh : history.isEmpty = false) (hk : envTruthy apiKey = true) :
    ((chatHandler env apiKey (.arr history) provider).2.map
        CompletionRequest.model = [llamaModel]) ∧
    (∀ m, provider ⟨llamaModel, buildMessages env history⟩ = .reply (.quotaError m) →
      (chatHandler env apiKey (.arr history) provider).1
        = ⟨200, [("reply", degradedReply)]⟩) := by
  constructor
  · simp only [chatHandler, hh, hk, Bool.not_true, Bool.false_eq_true, if_false]
    cases provider ⟨llamaModel, buildMessages env history⟩ <;> simp
  · intro m hm
    simp [chatHandler, hh, hk, hm, contentOr]

/-- Witness for the amended C3 at a concrete request. -/
theorem gateway_single_backend_witness :
    (chatHandler envW (some "key") (.arr historyW) quotaThenOkProvider).2.map
        CompletionRequest.model = [llamaModel] :=
  (gateway_single_backend envW (some "key") historyW quotaThenOkProvider rfl rfl).1

/-- Claim C4 (counterexample): the DeepSeek variant embeds the raw
provider error message verbatim in the reply body it sends to the
caller, instead of a fixed generic degraded message. -/
theorem degraded_reply_counterexample :
    deepseekReplyOf (.reply (.otherError "Invalid API key"))
      = ⟨200, [("reply", "<p>AI error: Invalid API key</p>")]⟩ ∧
    strContains "<p>AI error: Invalid API key</p>" "Invalid API key" = true ∧
    deepseekReplyOf (.reply (.otherError "Invalid API key"))
      ≠ deepseekReplyOf (.reply .noContent) := by
  refine ⟨rfl, by decide, by decide⟩

/-- Claim C4 (amended): the main variant's handler maps every
completion outcome with no usable content to one of two fixed
responses (the generic degraded 200 reply or a generic 500), which
carry no text derived from the provider error; the DeepSeek and
single-turn variants are excluded, as they surface provider error
details. -/
theorem degraded_reply_fixed (env : ProcEnv) (apiKey : Option String)
    (history : List Msg) (provider : CompletionRequest → ProviderOutcome)
    (hh : history.isEmpty = false) (hk : envTruthy apiKey = true)
    (hu : unusable (provider ⟨llamaModel, buildMessages env history⟩) = true) :
    (chatHandler env apiKey (.arr history) provider).1
        = ⟨200, [("reply", degradedReply)]⟩ ∨
    (chatHandler env apiKey (.arr history) provider).1
        = ⟨500, [("error", "Server error")]⟩ := by
  cases hp : provider ⟨llamaModel, buildMessages env history⟩ with
  | thrown m =>
    right
    simp [chatHandler, hh, hk, hp]
  | reply r =>
    left
    cases r with
    | success c =>
      have hc : c.isEmpty = true := by
        rw [hp] at hu
        simpa [unusable] using hu
      simp [chatHandler, hh, hk, hp, contentOr, hc]
    | quotaError m => simp [chatHandler, hh, hk, hp, contentOr]
    | otherError m => simp [chatHandler, hh, hk, hp, contentOr]
    | noContent => simp [chatHandler, hh, hk, hp, contentOr]

/-- Witness for the amended C4 at a contentless outcome. -/
theorem degraded_reply_fixed_witness :
    (chatHandler envW (some "key") (.arr historyW)
        (fun _ => .reply .noContent)).1 = ⟨200, [("reply", degradedReply)]⟩ ∨
    (chatHandler envW (some "key") (.arr historyW)
        (fun _ => .reply .noContent)).1 = ⟨500, [("error", "Server error")]⟩ :=
  degraded_reply_fixed envW (some "key") historyW (fun _ => .reply .noContent)
    rfl rfl rfl

/-- Claim C5: a body whose `messages` is absent, not an array, or empty
is rejected with a 400 response and no completion request is issued;
with a valid history but missing (or empty) API key the request is
rejected with a 500 before any remote call. -/
theorem handler_validation (env : ProcEnv) (apiKey : Option String)
    (provider : CompletionRequest → ProviderOutcome) :
    (∀ body, body = MessagesField.absent ∨ body = MessagesField.notArray ∨
        body = MessagesField.arr [] →
      chatHandler env apiKey body provider
        = (⟨400, [("error", "messages array required")]⟩, [])) ∧
    (∀ history, history.isEmpty = false → envTruthy apiKey = false →
      chatHandler env apiKey (.arr history) provider
        = (⟨500, [("error", "Missing OpenRouter API key")]⟩, [])) := by
  constructor
  · rintro body (rfl | rfl | rfl) <;> rfl
  · intro history hh hk
    simp [chatHandler, hh, hk]

/-- Witness for C5 at an absent `messages` field. -/
theorem handler_validation_witness :
    chatHandler envW none MessagesField.absent (fun _ => .reply .noContent)
      = (⟨400, [("error", "messages array required")]⟩, []) :=
  (handler_validation envW none (fun _ => .reply .noContent)).1
    MessagesField.absent (Or.inl rfl)

/-- Claim C8: the caller's history is sent element-for-element
unmodified and in order, directly after the two assembler-injected
messages (system prompt and catalog message), with nothing dropped or
truncated. -/
theorem history_appended_unmodified (env : ProcEnv) (apiKey : Option String)
    (history : List Msg) (provider : CompletionRequest → ProviderOutcome)
    (hh : history.isEmpty = false) (hk : envTruthy apiKey = true) :
    (chatHandler env apiKey (.arr history) provider).2
      = [⟨llamaModel, buildMessages env history⟩] ∧
    buildMessages env history = [systemMessage env, catalogMessage env] ++ history ∧
    (buildMessages env history).drop 2 = history ∧
    (buildMessages env history).length = history.length + 2 := by
  refine ⟨?_, rfl, rfl, by simp [buildMessages]⟩
  simp only [chatHandler, hh, hk, Bool.not_true, Bool.false_eq_true, if_false]
  cases provider ⟨llamaModel, buildMessages env history⟩ <;> simp

/-- Witness for C8 at a concrete request. -/
theorem history_appended_unmodified_witness :
    (buildMessages envW historyW).drop 2 = historyW :=
  (history_appended_unmodified envW (some "key") historyW
    (fun _ => .reply .noContent) rfl rfl).2.2.1

/-- Claim C9: prompt assembly reads only the catalog snapshot and the
store facts besides the request history — two process states agreeing
on those caches (but differing arbitrarily in clock or randomness
seed) assemble byte-identical message payloads for the same history. -/
theorem assembly_deterministic (e1 e2 : ProcEnv) (history : List Msg)
    (hc : e1.catalogLines = e2.catalogLines) (hs : e1.storeInfo = e2.storeInfo) :
    buildMessages e1 history = buildMessages e2 history := by
  simp [buildMessages, systemMessage, catalogMessage, hc, hs]

/-- Witness for C9: identical caches under different clock readings and
seeds. -/
theorem assembly_deterministic_witness :
    buildMessages envW historyW = buildMessages envW2 historyW :=
  assembly_deterministic envW envW2 historyW rfl rfl

/-- Claim C10: the serverless chat handler answers every non-POST
request with a 405 error body, issuing no completion call and doing no
other work on the request. -/
theorem non_post_rejected (method : String) (message : Option String)
    (provider : CompletionRequest → ProviderOutcome) (h : method ≠ "POST") :
    vercelHandler method message provider
      = (⟨405, [("error", "Only POST allowed")]⟩, []) := by
  simp [vercelHandler, h]

/-- Witness for C10 at a GET request. -/
theorem non_post_rejected_witness :
    vercelHandler "GET" (some "hello") (fun _ => .reply .noContent)
      = (⟨405, [("error", "Only POST allowed")]⟩, []) :=
  non_post_rejected "GET" (some "hello") (fun _ => .reply .noContent) (by decide)

/-- Test `chBeg q l` decides whether `l` starts with `q`. -/
theorem chBeg_iff (q l : List Char) : chBeg q l = true ↔ ∃ r, l = q ++ r := by
  induction q generalizing l with
  | nil =>
    simp [chBeg]
  | cons a qt ih =>
    cases l with
    | nil => simp [chBeg]
    | cons b lt =>
      simp only [chBeg, Bool.and_eq_true, beq_iff_eq, ih, List.cons_append,
        List.cons.injEq]
      constructor
      · rintro ⟨rfl, r, rfl⟩
        exact ⟨r, rfl, rfl⟩
      · rintro ⟨r, rfl, rfl⟩
        exact ⟨rfl, r, rfl⟩

/-- Test `chHas l q` decides whether `q` occurs contiguously inside `l`. -/
theorem chHas_iff (l q : List Char) : chHas l q = true ↔ ∃ a b, l = a ++ q ++ b := by
  induction l with
  | nil =>
    simp only [chHas, List.isEmpty_iff]
    constructor
    · rintro rfl
      exact ⟨[], [], rfl⟩
    · rintro ⟨a, b, h⟩
      have h2 := List.append_eq_nil.mp h.symm
      exact (List.append_eq_nil.mp h2.1).2
  | cons x t ih =>
    simp only [chHas, Bool.or_eq_true, chBeg_iff, ih]
    constructor
    · rintro (⟨r, hr⟩ | ⟨a, b, hab⟩)
      · exact ⟨[], r, by simpa using hr⟩
      · exact ⟨x :: a, b, by simp [hab]⟩
    · rintro ⟨a, b, hab⟩
      cases a with
      | nil => exact Or.inl ⟨b, by simpa using hab⟩
      | cons y ys =>
        rw [List.cons_append, List.cons_append, List.cons.injEq] at hab
        exact Or.inr ⟨ys, b, hab.2⟩

/-- Claim C6: the matcher returns exactly the products whose title or
some tag contains the query as a case-insensitive substring, in catalog
order, truncated at the default bound 8; an empty or whitespace-only
query yields zero results; and on the specification's two-product
snapshot, `lid` returns exactly the first product, `12oz` both in
catalog order, and the empty query nothing. -/
theorem matcher_correct :
    (∀ (q : String) (snap : List MatchProduct), blankQuery q = true →
      productMatcher 8 q snap = []) ∧
    (∀ (q : String) (p : MatchProduct), productMatches q p = true ↔
      ((∃ a b, lowerChars p.title = a ++ lowerChars q ++ b) ∨
        (∃ t ∈ p.tags, ∃ a b, lowerChars t = a ++ lowerChars q ++ b))) ∧
    (∀ (q : String) (snap : List MatchProduct), blankQuery q = false →
      productMatcher 8 q snap = (snap.filter (productMatches q)).take 8) ∧
    (∀ (q : String) (snap : List MatchProduct),
      (productMatcher 8 q snap).Sublist snap) ∧
    (∀ (q : String) (snap : List MatchProduct),
      (productMatcher 8 q snap).length ≤ 8) ∧
    productMatcher 8 "lid" [lidProduct, cupProduct] = [lidProduct] ∧
    productMatcher 8 "12oz" [lidProduct, cupProduct] = [lidProduct, cupProduct] ∧
    productMatcher 8 "" [lidProduct, cupProduct] = [] := by
  refine ⟨?_, ?_, ?_, ?_, ?_, ?_, ?_, ?_⟩
  · intro q snap hq
    simp [productMatcher, hq]
  · intro q p
    simp [productMatches, chHas_iff, List.any_eq_true]
  · intro q snap hq
    simp [productMatcher, hq]
  · intro q snap
    unfold productMatcher
    split
    · simp
    · exact (List.take_sublist _ _).trans (List.filter_sublist _)
  · intro q snap
    unfold productMatcher
    split
    · simp
    · exact List.length_take_le _ _
  · decide
  · decide
  · decide

/-- Witness for C6 at the empty query over the empty snapshot. -/
theorem matcher_correct_witness :
    productMatcher 8 "" ([] : List MatchProduct) = [] :=
  matcher_correct.1 "" [] (by decide)
